import Mathlib

/-!
Shallow embedding of `src/src/navigation/deep-linker.ts` (the Ionic
`DeepLinker`): URL normalization, the bounded history tracker, browser
URL-change classification, location updates, tab-index selection, component
lookup, view initialization with default history, and stack reconciliation
(`_loadViewFromSegment`).

Conventions of the embedding:
* JS strings are Lean `String`s (character lists for the low-level scans).
* JS arrays are Lean `List`s in the same left-to-right order: the JS element
  `a[a.length - 1]` (the top of the history stack / top of a nav stack) is
  the Lean `List.getLast?`.
* Out-of-range JS indexing yields `undefined`; it is modelled by `Option`
  via `jsGet`, which also reproduces JS behaviour at negative indices.
* A JS `Promise` that either resolves or rejects is `Except JsError`, where
  `JsError.rejected` is a `Promise.reject` and `JsError.thrown` a
  synchronous exception.
* External collaborators (the URL serializer, module loader) are passed in
  as function parameters, mirroring the injected objects of the source.
-/

namespace DeepLinker

/-- Opaque reference to an Angular component class. -/
abbrev Component := String

/-- Opaque navigation parameter object (`data`). -/
abbrev NavData := String

/-- ECMAScript whitespace recognized by `String.prototype.trim`: the full
WhiteSpace and LineTerminator productions — the ASCII whitespace
characters, NBSP, ZWNBSP/BOM, the line and paragraph separators, and every
Unicode Space_Separator character (U+1680, U+2000 to U+200A, U+202F,
U+205F, U+3000). -/
def jsIsWs (c : Char) : Bool :=
  c == ' ' || c == '\t' || c == '\n' || c == '\r' || c == '\x0b' ||
  c == '\x0c' || c == '\u00A0' || c == '\u1680' ||
  c == '\u2000' || c == '\u2001' || c == '\u2002' || c == '\u2003' ||
  c == '\u2004' || c == '\u2005' || c == '\u2006' || c == '\u2007' ||
  c == '\u2008' || c == '\u2009' || c == '\u200A' ||
  c == '\u2028' || c == '\u2029' || c == '\u202F' || c == '\u205F' ||
  c == '\u3000' || c == '\uFEFF'

/-- JS `String.prototype.trim`: drop whitespace from both ends. -/
def jsTrim (l : List Char) : List Char :=
  (((l.dropWhile jsIsWs).reverse.dropWhile jsIsWs)).reverse

/-- First conditional of `normalizeUrl` (lines 742-745): prepend `'/'`
unless the first char already is one (`charAt(0) !== '/'` also holds for
the empty string, whose `charAt` is the empty string). -/
def ensureLeadingSlash (t : List Char) : List Char :=
  if t.head? = some '/' then t else '/' :: t

/-- Second conditional of `normalizeUrl` (lines 746-749): drop the last
char when the length exceeds one and the last char is `'/'`. -/
def stripTrailingSlash (t : List Char) : List Char :=
  if 1 < t.length ∧ t.getLast? = some '/' then t.dropLast else t

/-- Embedding of `normalizeUrl` (deep-linker.ts lines 740-751) on character
lists: trim, ensure the first char is `'/'`, then strip one trailing
`'/'` when the length exceeds one. -/
def normalizeUrlChars (l : List Char) : List Char :=
  stripTrailingSlash (ensureLeadingSlash (jsTrim l))

/-- `normalizeUrl` on `String` (deep-linker.ts lines 740-751). -/
def normalizeUrl (browserUrl : String) : String :=
  String.mk (normalizeUrlChars browserUrl.data)

/-- JS array indexing `a[i]` with a possibly negative index: negative
indices (and overruns) give `undefined`, i.e. `none`. -/
def jsGet (l : List α) (i : Int) : Option α :=
  if i < 0 then none else l[i.toNat]?

/-- `_isCurrentUrl` (line 704): `browserUrl === this._history[this._history.length - 1]`. -/
def _isCurrentUrl (history : List String) (browserUrl : String) : Prop :=
  history.getLast? = some browserUrl

instance (history : List String) (u : String) : Decidable (_isCurrentUrl history u) := by
  unfold _isCurrentUrl; infer_instance

/-- `_isBackUrl` (line 697): `browserUrl === this._history[this._history.length - 2]`
(for histories shorter than two, the JS index is negative and the lookup is
`undefined`). -/
def _isBackUrl (history : List String) (browserUrl : String) : Prop :=
  jsGet history ((history.length : Int) - 2) = some browserUrl

instance (history : List String) (u : String) : Decidable (_isBackUrl history u) := by
  unfold _isBackUrl jsGet; infer_instance

/-- `_historyPush` (lines 711-718): append the url unless it already is the
top entry; drop the oldest entry (`shift`) once the length exceeds 30. -/
def _historyPush (history : List String) (browserUrl : String) : List String :=
  if _isCurrentUrl history browserUrl then history
  else
    let h := history ++ [browserUrl]
    if h.length > 30 then h.drop 1 else h

/-- `_historyPop` (lines 723-728): pop the top entry; if the buffer became
empty, re-seed it with the host location (`this._location.path()`), passed
here as `locationPath`. -/
def _historyPop (locationPath : String) (history : List String) : List String :=
  let h := history.dropLast
  if h.length = 0 then _historyPush h locationPath else h

/-- Outcome of `_urlChange` after the history update: what the method goes
on to do (lines 330-355). `noop` is the early exit when the url equals the
current history top; `goToRoot` is `appRootNav.goToRoot(...)` followed by
`return`; `parseAndLoad url` stands for `this._segments =
this._serializer.parse(url); this._loadNavFromPath(appRootNav)`;
`noRootNav` is the fall-through when `this._app.getRootNav()` is falsy. -/
inductive UrlChangeOutcome where
  | noop
  | goToRoot
  | parseAndLoad (url : String)
  | noRootNav
deriving DecidableEq

/-- `_urlChange` (lines 311-357): classify an already-normalized browser
url against the history, mutate the history, and decide the follow-up
action. `indexAliasUrl` is `this._indexAliasUrl` (possibly unset),
`locationPath` is `this._location.path()` (used only if a pop re-seeds),
and `hasRootNav` is the truthiness of `this._app.getRootNav()`. -/
def _urlChange (history : List String) (indexAliasUrl : Option String)
    (locationPath : String) (hasRootNav : Bool) (browserUrl : String) :
    List String × UrlChangeOutcome :=
  if _isCurrentUrl history browserUrl then (history, .noop)
  else
    let h := if _isBackUrl history browserUrl
             then _historyPop locationPath history
             else _historyPush history browserUrl
    if hasRootNav then
      if browserUrl = "/" then
        match indexAliasUrl with
        | some aliasUrl => (h, .parseAndLoad aliasUrl)
        | none => (h, .goToRoot)
      else (h, .parseAndLoad browserUrl)
    else (h, .noRootNav)

/-- Calls issued by `_updateLocation` against the host `Location` service. -/
inductive LocationEffect where
  | back
  | go (url : String)
deriving DecidableEq

/-- Modelled from the spec: the constant `DIRECTION_BACK` is imported from
`nav-util` (not under src/); the spec names the direction `"back"`. -/
def DIRECTION_BACK : String := "back"

/-- `_updateLocation` (lines 385-403): substitute `/` for the index alias,
then either pop history and call `location.back()` (when the direction is
back and the url is the history's second-from-top entry), or push history
and call `location.go(url)` (when the url is not the current top), or do
nothing. -/
def _updateLocation (history : List String) (indexAliasUrl : Option String)
    (locationPath : String) (browserUrl direction : String) :
    List String × List LocationEffect :=
  let u := if indexAliasUrl = some browserUrl then ("/") else browserUrl
  if direction = DIRECTION_BACK ∧ _isBackUrl history u then
    (_historyPop locationPath history, [.back])
  else if ¬ _isCurrentUrl history u then
    (_historyPush history u, [.go u])
  else (history, [])

/-- The slice of a `Tab` instance consulted by `getSelectedTabIndex`:
`tabUrlPath`, `tabTitle` (both optional inputs) and the tab's positional
`index`. -/
structure Tab where
  tabUrlPath : Option String
  tabTitle : Option String
  index : Nat
deriving DecidableEq

/-- JS `isPresent` from util: not `undefined` and not `null`. -/
def isPresent (o : Option α) : Bool := o.isSome

/-- `parseInt(s, 10)` on a non-empty run of decimal digits. -/
def digitsToNat (ds : List Char) : Nat :=
  ds.foldl (fun n c => 10 * n + (c.toNat - '0'.toNat)) 0

/-- One attempt of the regex `/tab-(\d+)/` at the start of the list: the
literal `tab-` followed by a greedy non-empty digit run. -/
def tryTabAt (l : List Char) : Option Nat :=
  match l with
  | 't' :: 'a' :: 'b' :: '-' :: rest =>
    let ds := rest.takeWhile Char.isDigit
    if ds.isEmpty then none else some (digitsToNat ds)
  | _ => none

/-- The unanchored search of `pathName.match(/tab-(\d+)/)` (line 550):
try the pattern at every position from the left and keep the first match,
exactly as the JS regex engine does for this pattern. -/
def findTabMatch : List Char → Option Nat
  | [] => none
  | c :: cs =>
    match tryTabAt (c :: cs) with
    | some n => some n
    | none => findTabMatch cs

/-- `getSelectedTabIndex` (lines 548-564). `fmt` is the injected
`this._serializer.formatUrlPart`; the source's `fallbackIndex` default
argument is `0` and its single call site relies on the default. -/
def getSelectedTabIndex (tabs : List Tab) (fmt : String → String)
    (pathName : String) (fallbackIndex : Nat) : Nat :=
  match findTabMatch pathName.data with
  | some n => n
  | none =>
    match tabs.find? (fun t =>
        (isPresent t.tabUrlPath && (t.tabUrlPath == some pathName)) ||
        (isPresent t.tabTitle && (t.tabTitle.map fmt == some pathName))) with
    | some t => t.index
    | none => fallbackIndex

/-- How a JS `Promise`-typed result fails: `rejected` for `Promise.reject`
(an asynchronous rejection), `thrown` for a synchronous exception escaping
before any promise is produced. -/
inductive JsError where
  | rejected (msg : String)
  | thrown (msg : String)
deriving DecidableEq

deriving instance DecidableEq for Except

/-- A settled JS promise: either a value or a `JsError`. -/
abbrev JsPromise (α : Type) := Except JsError α

/-- The slice of a `NavLink` registration consulted here: the symbolic
`name`, the (possibly not yet resolved) `component`, and the lazy-load
locator `loadChildren`. -/
structure NavLink where
  name : String
  component : Option Component
  loadChildren : Option String
deriving DecidableEq

/-- The slice of a parsed `NavSegment` consulted here: `id`, `name`,
resolved `component`, `data` and the optional `defaultHistory` name list
(`isArray(segment.defaultHistory)` is its presence). -/
structure NavSegment where
  id : String
  name : String
  component : Option Component
  data : Option NavData
  defaultHistory : Option (List String)
deriving DecidableEq

/-- The slice of a `ViewController` used here: the component it renders,
its `data`, and its optional string `id` (compared against segment ids). -/
structure ViewController where
  component : Option Component
  data : Option NavData
  id : Option String
deriving DecidableEq

/-- `getNavLinkComponent` (lines 418-434): resolve a link's component —
already cached, lazily loaded through the module loader (`loadModule` is
the injected `this._moduleLoader.load`, already settled), or a rejection
`invalid link component: <name>`. -/
def getNavLinkComponent (loadModule : String → JsPromise Component)
    (link : NavLink) : JsPromise Component :=
  match link.component with
  | some c => Except.ok c
  | none =>
    match link.loadChildren with
    | some lc =>
      match loadModule lc with
      | Except.ok c => Except.ok c
      | Except.error e => Except.error e
    | none => Except.error (.rejected ("invalid link component: " ++ link.name))

/-- `getComponentFromName` (lines 406-415): look the name up in the
serializer's registry (`lookup` is the injected
`this._serializer.getLinkFromName`) and resolve the link; an unknown name
is the rejection `invalid link: <name>`. -/
def getComponentFromName (lookup : String → Option NavLink)
    (loadModule : String → JsPromise Component)
    (componentName : String) : JsPromise Component :=
  match lookup componentName with
  | some link => getNavLinkComponent loadModule link
  | none => Except.error (.rejected ("invalid link: " ++ componentName))

/-- Modelled from the spec: `convertToViews` lives in `nav-util.ts`, which
is not under src/. Per the spec's default-history synthesis, each ancestor
page name in the list is looked up by name and resolved into its own view
instance; a lookup failure rejects the whole conversion. -/
def convertToViews (lookup : String → Option NavLink)
    (loadModule : String → JsPromise Component) :
    List String → JsPromise (List ViewController)
  | [] => Except.ok []
  | n :: rest =>
    match getComponentFromName lookup loadModule n with
    | Except.error e => Except.error e
    | Except.ok c =>
      match convertToViews lookup loadModule rest with
      | Except.error e => Except.error e
      | Except.ok vs => Except.ok ({ component := some c, data := none, id := none } :: vs)

/-- `initViews` (lines 596-612): resolve the segment's link, build the
deep-linked view (carrying the segment's data and tagged with its id) and,
when the segment declares a `defaultHistory` array, append that view after
the converted default-history views. When `getLinkFromName` returns null,
the JS dereference `link.component` inside `getNavLinkComponent` throws
synchronously (modelled as `JsError.thrown`). -/
def initViews (lookup : String → Option NavLink)
    (loadModule : String → JsPromise Component)
    (segment : NavSegment) : JsPromise (List ViewController) :=
  match lookup segment.name with
  | none => Except.error (.thrown ("cannot read component of null link"))
  | some link =>
    match getNavLinkComponent loadModule link with
    | Except.error e => Except.error e
    | Except.ok component =>
      let view : ViewController :=
        { component := some component, data := segment.data, id := some segment.id }
      match segment.defaultHistory with
      | some names =>
        match convertToViews lookup loadModule names with
        | Except.error e => Except.error e
        | Except.ok views => Except.ok (views ++ [view])
      | none => Except.ok [view]

/-- A navigation node as dispatched on by `_loadViewFromSegment`: either a
`Tabs` container (`isTabs`) or a plain nav controller with its view stack
(index 0 is the bottom, `length - 1` the top, as with `getByIndex`). -/
inductive NavNode where
  | tabs (tabs : List Tab)
  | nav (stack : List ViewController)
deriving DecidableEq

/-- The downward search loop of `_loadViewFromSegment` (lines 663-685):
`for (i = nav.length() - 1; i >= 0; i--)` looking for `view && view.id ===
segment.id` (the guarded comparison is `(stack[i]?).bind id = some segId`:
false when the view is absent, else the id comparison).
`findFromTopGo stack segId (i+1)` inspects index `i` first. -/
def findFromTopGo (stack : List ViewController) (segId : String) :
    Nat → Option Nat
  | 0 => none
  | i + 1 =>
    if (stack[i]?).bind ViewController.id = some segId then some i
    else findFromTopGo stack segId i

/-- Index of the topmost view whose id equals the segment's id, searching
from the top of the stack down (the loop of lines 663-685). -/
def findViewIndexFromTop (stack : List ViewController) (segId : String) : Option Nat :=
  findFromTopGo stack segId stack.length

/-- What `_loadViewFromSegment` does after segment attribution, with the
option objects it passes recorded verbatim: `selectTab` is
`tabsNav.select(index, {updateUrl:false, animate:false})`; `doneTopMatch`
is the bare `done()` when the matching view already is the top;
`popTo i` is `nav.popTo(stack[i], {animate:false, updateUrl:false}, done)`;
`push` is `nav.push(component, data, {id, animate:false, updateUrl:false},
done)`. -/
inductive LoadSegmentAction where
  | doneNoSegment
  | selectTab (index : Nat) (animate updateUrl : Bool)
  | doneTopMatch
  | popTo (targetIndex : Nat) (animate updateUrl : Bool)
  | push (component : Option Component) (data : Option NavData) (id : String)
      (animate updateUrl : Bool)
deriving DecidableEq

/-- `_loadViewFromSegment` (lines 638-692). `segment` is the result of
`initNav` (none aborts immediately); a `Tabs` node selects a tab via
`getSelectedTabIndex` and stops; a nav node searches its stack from the
top down for the segment's id and ends in no change, a pop-to, or a push. -/
def _loadViewFromSegment (node : NavNode) (fmt : String → String)
    (segment : Option NavSegment) : LoadSegmentAction :=
  match segment with
  | none => .doneNoSegment
  | some seg =>
    match node with
    | .tabs tabs => .selectTab (getSelectedTabIndex tabs fmt seg.name 0) false false
    | .nav stack =>
      match findViewIndexFromTop stack seg.id with
      | some i =>
        if i = stack.length - 1 then .doneTopMatch
        else .popTo i false false
      | none => .push seg.component seg.data seg.id false false

/-- Modelled from the spec: the effect of the recorded action on the
controller's stack. `popTo(view)` pops the stack back to that view
(discarding everything above it) and `push` appends a new view built from
the segment's component and data, tagged with the segment's id; the
`NavController` implementing both is not under src/. -/
def applyLoadAction (stack : List ViewController) :
    LoadSegmentAction → List ViewController
  | .doneNoSegment => stack
  | .selectTab _ _ _ => stack
  | .doneTopMatch => stack
  | .popTo i _ _ => stack.take (i + 1)
  | .push c d i _ _ => stack ++ [{ component := c, data := d, id := some i }]

/-- The tab choice as the spec's words describe it: the first tab whose
`tabUrlPath` (or, failing that, whose formatted `tabTitle`) equals the
segment's name, falling back to index 0 when no tab matches. Used to
compare the source's `getSelectedTabIndex` against the claim. -/
def specSelectedTab (tabs : List Tab) (fmt : String → String)
    (pathName : String) : Nat :=
  match tabs.find? (fun t =>
      (t.tabUrlPath == some pathName) || (t.tabTitle.map fmt == some pathName)) with
  | some t => t.index
  | none => 0

end DeepLinker

namespace DeepLinker

theorem isBackUrl_iff (history : List String) (u : String) :
    _isBackUrl history u ↔
      2 ≤ history.length ∧ history[history.length - 2]? = some u := by
  unfold _isBackUrl jsGet
  rcases le_or_lt 2 history.length with h | h
  · have h0 : ¬ ((history.length : Int) - 2 < 0) := by omega
    rw [if_neg h0]
    have h1 : ((history.length : Int) - 2).toNat = history.length - 2 := by omega
    rw [h1]
    simp [h]
  · have h0 : (history.length : Int) - 2 < 0 := by omega
    rw [if_pos h0]
    constructor
    · intro hc; simp at hc
    · rintro ⟨h2, -⟩; omega

theorem historyPush_nil (p : String) : _historyPush [] p = [p] := by
  unfold _historyPush _isCurrentUrl
  simp

theorem historyPop_eq_dropLast (p : String) (history : List String)
    (h : history.dropLast ≠ []) : _historyPop p history = history.dropLast := by
  unfold _historyPop
  rw [if_neg]
  simp only [List.length_eq_zero]
  exact h

theorem historyPop_of_short (p : String) (history : List String)
    (h : history.dropLast = []) : _historyPop p history = [p] := by
  unfold _historyPop
  rw [h]
  simp [historyPush_nil]

/-- Claim C9: `_historyPop` removes the top entry of the history buffer;
when the buffer thereby becomes empty it is re-seeded with the host's
present location, so the buffer is never empty after a pop. -/
theorem claim_C9_history_pop (p : String) (history : List String) :
    _historyPop p history ≠ [] ∧
    (history.dropLast ≠ [] → _historyPop p history = history.dropLast) ∧
    (history.dropLast = [] → _historyPop p history = [p]) := by
  refine ⟨?_, historyPop_eq_dropLast p history, historyPop_of_short p history⟩
  by_cases h : history.dropLast = []
  · rw [historyPop_of_short p history h]; simp
  · rw [historyPop_eq_dropLast p history h]; exact h

/-- Witness for claim C9 at concrete inputs. -/
theorem claim_C9_witness :
    _historyPop ("/seed") ["/a"] = ["/seed"] ∧
    _historyPop ("/seed") ["/a", "/b"] = ["/a"] := by
  refine ⟨(claim_C9_history_pop ("/seed") ["/a"]).2.2 (by decide),
          (claim_C9_history_pop ("/seed") ["/a", "/b"]).2.1 (by decide)⟩

/-- Claim C8: the history buffer never exceeds 30 entries — from any
history of length at most 30, `_historyPush` keeps the length at most 30,
dropping the oldest entry when a push would exceed the cap — and pushing
the url already on top leaves the buffer unchanged. -/
theorem claim_C8_history_cap (history : List String) (u : String) :
    (history.length ≤ 30 → (_historyPush history u).length ≤ 30) ∧
    (history.getLast? = some u → _historyPush history u = history) ∧
    (history.getLast? ≠ some u → history.length = 30 →
      _historyPush history u = history.drop 1 ++ [u]) := by
  refine ⟨?_, ?_, ?_⟩
  · intro hlen
    unfold _historyPush
    by_cases hc : _isCurrentUrl history u
    · rw [if_pos hc]; exact hlen
    · rw [if_neg hc]
      by_cases hover : (history ++ [u]).length > 30
      · simp only [if_pos hover]
        simp
        omega
      · simp only [if_neg hover]
        omega
  · intro htop
    have hc : _isCurrentUrl history u := htop
    unfold _historyPush
    rw [if_pos hc]
  · intro htop hlen
    have hc : ¬ _isCurrentUrl history u := htop
    unfold _historyPush
    rw [if_neg hc]
    have hover : (history ++ [u]).length > 30 := by simp [hlen]
    simp only [if_pos hover]
    obtain ⟨a, t, rfl⟩ : ∃ a t, history = a :: t := by
      cases history with
      | nil => simp at hlen
      | cons a t => exact ⟨a, t, rfl⟩
    simp

/-- Witness for claim C8 at concrete inputs. -/
theorem claim_C8_witness :
    (_historyPush ["/a", "/b"] ("/c")).length ≤ 30 ∧
    _historyPush ["/a", "/b"] ("/b") = ["/a", "/b"] := by
  refine ⟨(claim_C8_history_cap ["/a", "/b"] ("/c")).1 (by decide),
          (claim_C8_history_cap ["/a", "/b"] ("/b")).2.1 (by decide)⟩

theorem urlChange_fst (history : List String) (indexAliasUrl : Option String)
    (locationPath : String) (hasRootNav : Bool) (u : String)
    (hc : ¬ _isCurrentUrl history u) :
    (_urlChange history indexAliasUrl locationPath hasRootNav u).1 =
      if _isBackUrl history u then _historyPop locationPath history
      else _historyPush history u := by
  unfold _urlChange
  rw [if_neg hc]
  cases hasRootNav with
  | false => rfl
  | true =>
    rw [if_pos rfl]
    by_cases hr : u = "/"
    · rw [if_pos hr]
      cases indexAliasUrl <;> rfl
    · rw [if_neg hr]

theorem dropLast_ne_nil_of_two (history : List String) (h : 2 ≤ history.length) :
    history.dropLast ≠ [] := by
  intro hnil
  have := congrArg List.length hnil
  simp at this
  omega

/-- Claim C2: `_urlChange` on a normalized url equal to the history top
changes nothing (no history mutation, no parse, no reconciliation);
otherwise, a url equal to the second-from-top history entry pops the
history, and any other url is pushed onto the history. -/
theorem claim_C2_url_change_classification (history : List String)
    (indexAliasUrl : Option String) (locationPath : String) (hasRootNav : Bool)
    (u : String) :
    (history.getLast? = some u →
      _urlChange history indexAliasUrl locationPath hasRootNav u =
        (history, .noop)) ∧
    (history.getLast? ≠ some u →
      2 ≤ history.length → history[history.length - 2]? = some u →
      (_urlChange history indexAliasUrl locationPath hasRootNav u).1 =
        history.dropLast) ∧
    (history.getLast? ≠ some u →
      ¬ (2 ≤ history.length ∧ history[history.length - 2]? = some u) →
      (_urlChange history indexAliasUrl locationPath hasRootNav u).1 =
        _historyPush history u ∧
      ((_urlChange history indexAliasUrl locationPath hasRootNav u).1).getLast? =
        some u) := by
  refine ⟨?_, ?_, ?_⟩
  · intro htop
    have hc : _isCurrentUrl history u := htop
    unfold _urlChange
    rw [if_pos hc]
  · intro htop hlen hprev
    have hc : ¬ _isCurrentUrl history u := htop
    have hb : _isBackUrl history u := (isBackUrl_iff history u).2 ⟨hlen, hprev⟩
    rw [urlChange_fst history indexAliasUrl locationPath hasRootNav u hc, if_pos hb]
    exact historyPop_eq_dropLast locationPath history
      (dropLast_ne_nil_of_two history hlen)
  · intro htop hnb
    have hc : ¬ _isCurrentUrl history u := htop
    have hb : ¬ _isBackUrl history u := fun hb =>
      hnb ((isBackUrl_iff history u).1 hb)
    rw [urlChange_fst history indexAliasUrl locationPath hasRootNav u hc, if_neg hb]
    refine ⟨rfl, ?_⟩
    unfold _historyPush
    rw [if_neg hc]
    by_cases hover : (history ++ [u]).length > 30
    · rw [if_pos hover]
      obtain ⟨a, t, rfl⟩ : ∃ a t, history = a :: t := by
        cases history with
        | nil => simp at hover
        | cons a t => exact ⟨a, t, rfl⟩
      simp
    · rw [if_neg hover]
      simp

/-- Witness for claim C2 at concrete inputs: a back url pops, a fresh url
pushes, the current url is a no-op. -/
theorem claim_C2_witness :
    _urlChange ["/a", "/b"] none ("/x") true ("/b") = (["/a", "/b"], .noop) ∧
    (_urlChange ["/a", "/b"] none ("/x") true ("/a")).1 = ["/a"] ∧
    (_urlChange ["/a", "/b"] none ("/x") true ("/c")).1 = ["/a", "/b", "/c"] := by
  refine ⟨(claim_C2_url_change_classification ["/a", "/b"] none ("/x") true ("/b")).1
      (by decide), ?_, ?_⟩
  · have h := (claim_C2_url_change_classification ["/a", "/b"] none ("/x") true
      ("/a")).2.1 (by decide) (by decide) (by decide)
    rw [h]
    decide
  · have h := (claim_C2_url_change_classification ["/a", "/b"] none ("/x") true
      ("/c")).2.2 (by decide) (by decide)
    rw [h.1]
    decide

/-- Claim C4: on an internal navigation settle with direction back whose
computed url (after index-alias substitution) equals the history's
second-from-top entry, `_updateLocation` pops the history and invokes the
host's native `location.back()`, and issues no history push and no
`location.go`. -/
theorem claim_C4_back_navigation (history : List String)
    (indexAliasUrl : Option String) (locationPath : String)
    (browserUrl direction : String)
    (hdir : direction = DIRECTION_BACK)
    (hlen : 2 ≤ history.length)
    (hprev : history[history.length - 2]? =
      some (if indexAliasUrl = some browserUrl then ("/") else browserUrl)) :
    _updateLocation history indexAliasUrl locationPath browserUrl direction =
      (history.dropLast, [LocationEffect.back]) ∧
    ∀ v, LocationEffect.go v ∉
      (_updateLocation history indexAliasUrl locationPath browserUrl direction).2 := by
  have hb : _isBackUrl history
      (if indexAliasUrl = some browserUrl then ("/") else browserUrl) :=
    (isBackUrl_iff history _).2 ⟨hlen, hprev⟩
  have hmain : _updateLocation history indexAliasUrl locationPath browserUrl direction =
      (history.dropLast, [LocationEffect.back]) := by
    unfold _updateLocation
    rw [if_pos ⟨hdir, hb⟩]
    rw [historyPop_eq_dropLast locationPath history (dropLast_ne_nil_of_two history hlen)]
  refine ⟨hmain, ?_⟩
  rw [hmain]
  intro v hv
  simp at hv

/-- Witness for claim C4 at concrete inputs. -/
theorem claim_C4_witness :
    _updateLocation ["/a", "/b"] none ("/x") ("/a") ("back") =
      (["/a"], [LocationEffect.back]) := by
  exact (claim_C4_back_navigation ["/a", "/b"] none ("/x") ("/a") ("back")
    (by decide) (by decide) (by decide)).1

/-- Claim C5: a symbolic page name with no registered link, and a link with
neither a resolved component nor a `loadChildren` locator, both surface as
rejected promises (never synchronous throws) with descriptive messages, and
the `getNavLinkComponent` rejection propagates uncaught through
`initViews`. -/
theorem claim_C5_lookup_failure_rejection
    (lookup : String → Option NavLink) (loadModule : String → JsPromise Component)
    (componentName : String) (link : NavLink) (segment : NavSegment) :
    (lookup componentName = none →
      getComponentFromName lookup loadModule componentName =
        Except.error (.rejected ("invalid link: " ++ componentName))) ∧
    (link.component = none → link.loadChildren = none →
      getNavLinkComponent loadModule link =
        Except.error (.rejected ("invalid link component: " ++ link.name))) ∧
    (lookup segment.name = some link → link.component = none →
      link.loadChildren = none →
      initViews lookup loadModule segment =
        Except.error (.rejected ("invalid link component: " ++ link.name))) := by
  have hnav : link.component = none → link.loadChildren = none →
      getNavLinkComponent loadModule link =
        Except.error (.rejected ("invalid link component: " ++ link.name)) := by
    intro hc hl
    unfold getNavLinkComponent
    rw [hc, hl]
  refine ⟨?_, hnav, ?_⟩
  · intro hnone
    unfold getComponentFromName
    rw [hnone]
  · intro hsome hc hl
    unfold initViews
    simp only [hsome, hnav hc hl]

/-- Witness for claim C5 at concrete inputs. -/
theorem claim_C5_witness :
    getComponentFromName (fun _ => none) (fun _ => Except.error (.rejected ("x")))
      ("MyPage") = Except.error (.rejected ("invalid link: MyPage")) ∧
    getNavLinkComponent (fun _ => Except.error (.rejected ("x")))
      ⟨"broken", none, none⟩ =
      Except.error (.rejected ("invalid link component: broken")) ∧
    initViews (fun n => if n = "broken" then some ⟨"broken", none, none⟩ else none)
      (fun _ => Except.error (.rejected ("x")))
      ⟨"v1", "broken", none, none, none⟩ =
      Except.error (.rejected ("invalid link component: broken")) := by
  have h := claim_C5_lookup_failure_rejection
    (fun _ => none) (fun _ => Except.error (.rejected ("x"))) ("MyPage")
    ⟨"broken", none, none⟩ ⟨"v1", "broken", none, none, none⟩
  have h2 := claim_C5_lookup_failure_rejection
    (fun n => if n = "broken" then some ⟨"broken", none, none⟩ else none)
    (fun _ => Except.error (.rejected ("x"))) ("MyPage")
    ⟨"broken", none, none⟩ ⟨"v1", "broken", none, none, none⟩
  exact ⟨h.1 rfl, h.2.1 rfl rfl, h2.2.2 (by decide) rfl rfl⟩

theorem convertToViews_length (lookup : String → Option NavLink)
    (loadModule : String → JsPromise Component) :
    ∀ (names : List String) (views : List ViewController),
      convertToViews lookup loadModule names = Except.ok views →
      views.length = names.length := by
  intro names
  induction names with
  | nil =>
    intro views h
    unfold convertToViews at h
    cases h
    rfl
  | cons n rest ih =>
    intro views h
    unfold convertToViews at h
    cases hc : getComponentFromName lookup loadModule n with
    | error e => rw [hc] at h; cases h
    | ok c =>
      rw [hc] at h
      cases hr : convertToViews lookup loadModule rest with
      | error e => rw [hr] at h; cases h
      | ok vs =>
        rw [hr] at h
        cases h
        simp [ih vs hr]

/-- Claim C6: when a segment declares a `defaultHistory` list of ancestor
page names, `initViews` resolves those names into view instances placed
before the deep-linked view, which is the last element of the result. -/
theorem claim_C6_default_history (lookup : String → Option NavLink)
    (loadModule : String → JsPromise Component) (segment : NavSegment)
    (names : List String) (link : NavLink) (c : Component)
    (views : List ViewController)
    (hdh : segment.defaultHistory = some names)
    (hlink : lookup segment.name = some link)
    (hcomp : getNavLinkComponent loadModule link = Except.ok c)
    (hconv : convertToViews lookup loadModule names = Except.ok views) :
    initViews lookup loadModule segment =
      Except.ok (views ++ [⟨some c, segment.data, some segment.id⟩]) ∧
    (views ++ [(⟨some c, segment.data, some segment.id⟩ : ViewController)]).getLast? =
      some ⟨some c, segment.data, some segment.id⟩ ∧
    views.length = names.length := by
  refine ⟨?_, List.getLast?_concat views, convertToViews_length lookup loadModule names views hconv⟩
  unfold initViews
  simp only [hlink, hcomp, hdh, hconv]

/-- Witness for claim C6: deep-linking to `detail-page` (with
`defaultHistory ["list"]`) yields the two-view stack `[list, detail-page]`
with the deep-linked view last. -/
theorem claim_C6_witness :
    initViews (fun n => if n = "list" then some ⟨"list", some ("ListPage"), none⟩
        else if n = "detail-page" then some ⟨"detail-page", some ("DetailPage"), none⟩
        else none)
      (fun _ => Except.error (.rejected ("no loader")))
      ⟨"42", "detail-page", none, some ("id=42"), some ["list"]⟩ =
      Except.ok [⟨some ("ListPage"), none, none⟩,
                 ⟨some ("DetailPage"), some ("id=42"), some ("42")⟩] := by
  have h := claim_C6_default_history
    (fun n => if n = "list" then some ⟨"list", some ("ListPage"), none⟩
      else if n = "detail-page" then some ⟨"detail-page", some ("DetailPage"), none⟩
      else none)
    (fun _ => Except.error (.rejected ("no loader")))
    ⟨"42", "detail-page", none, some ("id=42"), some ["list"]⟩
    ["list"] ⟨"detail-page", some ("DetailPage"), none⟩ ("DetailPage")
    [⟨some ("ListPage"), none, none⟩]
    rfl (by decide) (by decide) (by decide)
  rw [h.1]
  decide

theorem find?_congr_pred {p q : Tab → Bool} (h : ∀ t, p t = q t) :
    ∀ l : List Tab, l.find? p = l.find? q := by
  intro l
  induction l with
  | nil => rfl
  | cons a as ih => rw [List.find?_cons, List.find?_cons, h a, ih]

theorem tab_pred_eq (fmt : String → String) (pathName : String) (t : Tab) :
    ((isPresent t.tabUrlPath && (t.tabUrlPath == some pathName)) ||
      (isPresent t.tabTitle && (t.tabTitle.map fmt == some pathName))) =
    ((t.tabUrlPath == some pathName) || (t.tabTitle.map fmt == some pathName)) := by
  rcases t with ⟨up, tt, i⟩
  cases up <;> cases tt <;> rfl

/-- When the segment name contains no `tab-<digits>` substring, the
source's `getSelectedTabIndex` agrees with the selection the spec
describes: first tab matching by `tabUrlPath` or formatted `tabTitle`,
fallback index 0. -/
theorem getSelectedTabIndex_eq_spec (tabs : List Tab) (fmt : String → String)
    (pathName : String) (hno : findTabMatch pathName.data = none) :
    getSelectedTabIndex tabs fmt pathName 0 = specSelectedTab tabs fmt pathName := by
  unfold getSelectedTabIndex specSelectedTab
  rw [hno]
  rw [find?_congr_pred (tab_pred_eq fmt pathName) tabs]

/-- Claim C7 as stated is false: `getSelectedTabIndex` first applies the
unanchored regex `tab-<digits>`, so the segment name `tab-1` selects index
1 positionally even though no tab of the container has `tabUrlPath` or
`tabTitle` equal to `tab-1` (the claim demands fallback index 0). -/
theorem claim_C7_counterexample :
    _loadViewFromSegment
        (.tabs [⟨some ("settings"), none, 0⟩, ⟨some ("other"), none, 1⟩]) id
        (some ⟨"tab-1", "tab-1", none, none, none⟩) =
      .selectTab 1 false false ∧
    (∀ t ∈ ([⟨some ("settings"), none, 0⟩, ⟨some ("other"), none, 1⟩] : List Tab),
      t.tabUrlPath ≠ some ("tab-1") ∧ t.tabTitle.map id ≠ some ("tab-1")) ∧
    (1 : Nat) ≠ 0 := by decide

/-- Claim C7 amended: for every segment whose name contains no
`tab-<digits>` substring, reconciling a tabbed container selects the tab
whose `tabUrlPath` (or, failing that, formatted `tabTitle`) equals the
segment's name — not a tab chosen by positional index — with fallback to
index 0 when no tab matches; the selection is performed with animate:false
and updateUrl:false and reconciliation stops at that node (no stack
action). -/
theorem claim_C7_amended_tab_selection (tabs : List Tab) (fmt : String → String)
    (seg : NavSegment) (hno : findTabMatch seg.name.data = none) :
    _loadViewFromSegment (.tabs tabs) fmt (some seg) =
      .selectTab (specSelectedTab tabs fmt seg.name) false false ∧
    (∀ stack : List ViewController,
      applyLoadAction stack (_loadViewFromSegment (.tabs tabs) fmt (some seg)) = stack) := by
  have h1 : _loadViewFromSegment (.tabs tabs) fmt (some seg) =
      .selectTab (specSelectedTab tabs fmt seg.name) false false := by
    simp only [_loadViewFromSegment]
    rw [getSelectedTabIndex_eq_spec tabs fmt seg.name hno]
  refine ⟨h1, ?_⟩
  intro stack
  rw [h1]
  rfl

/-- Witness for the amended claim C7: a container whose second tab has
`tabUrlPath = "settings"` selects index 1 for the segment name
`settings`, not the positional index 0. -/
theorem claim_C7_witness :
    _loadViewFromSegment
        (.tabs [⟨some ("other"), none, 0⟩, ⟨some ("settings"), none, 1⟩]) id
        (some ⟨"x", "settings", none, none, none⟩) =
      .selectTab 1 false false := by
  have h := claim_C7_amended_tab_selection
    [⟨some ("other"), none, 0⟩, ⟨some ("settings"), none, 1⟩] id
    ⟨"x", "settings", none, none, none⟩ (by decide)
  rw [h.1]
  decide

theorem findTabMatch_cons (c : Char) (cs : List Char) :
    findTabMatch (c :: cs) =
      (match tryTabAt (c :: cs) with
       | some n => some n
       | none => findTabMatch cs) := rfl

theorem tryTabAt_tab (rest : List Char) :
    tryTabAt ('t' :: 'a' :: 'b' :: '-' :: rest) =
      (if (rest.takeWhile Char.isDigit).isEmpty = true then none
       else some (digitsToNat (rest.takeWhile Char.isDigit))) := rfl

/-- Claim C10: the `tab-<digits>` pattern is unanchored — any segment name
containing such a substring anywhere selects the number taken from the
first such substring as the tab index, without consulting any tab's
`tabUrlPath` or `tabTitle`; matching by `tabUrlPath` or formatted
`tabTitle` happens only when the name contains no such substring. -/
theorem claim_C10_tab_digit_match :
    (∀ (pre post ds : List Char), ds ≠ [] → (∀ c ∈ ds, c.isDigit = true) →
      ∃ n, findTabMatch (pre ++ 't' :: 'a' :: 'b' :: '-' :: (ds ++ post)) = some n) ∧
    (∀ (tabs : List Tab) (fmt : String → String) (s : String) (fb n : Nat),
      findTabMatch s.data = some n → getSelectedTabIndex tabs fmt s fb = n) ∧
    (∀ (tabs tabs' : List Tab) (fmt fmt' : String → String) (s : String)
        (fb fb' n : Nat), findTabMatch s.data = some n →
      getSelectedTabIndex tabs fmt s fb = getSelectedTabIndex tabs' fmt' s fb') ∧
    (∀ (tabs : List Tab) (fmt : String → String) (s : String),
      findTabMatch s.data = none →
      getSelectedTabIndex tabs fmt s 0 = specSelectedTab tabs fmt s) := by
  have hfound : ∀ (tabs : List Tab) (fmt : String → String) (s : String) (fb n : Nat),
      findTabMatch s.data = some n → getSelectedTabIndex tabs fmt s fb = n := by
    intro tabs fmt s fb n h
    unfold getSelectedTabIndex
    rw [h]
  refine ⟨?_, hfound, ?_, getSelectedTabIndex_eq_spec⟩
  · intro pre post ds hne hdig
    induction pre with
    | nil =>
      obtain ⟨d, ds', rfl⟩ : ∃ d ds', ds = d :: ds' := by
        cases ds with
        | nil => exact absurd rfl hne
        | cons d ds' => exact ⟨d, ds', rfl⟩
      have hd : d.isDigit = true := hdig d (by simp)
      rw [List.nil_append, findTabMatch_cons]
      have htry : tryTabAt ('t' :: 'a' :: 'b' :: '-' :: ((d :: ds') ++ post)) =
          some (digitsToNat (List.takeWhile Char.isDigit (d :: (ds' ++ post)))) := by
        rw [tryTabAt_tab, List.cons_append, List.takeWhile_cons_of_pos hd]
        rfl
      rw [htry]
      exact ⟨digitsToNat (List.takeWhile Char.isDigit (d :: (ds' ++ post))), rfl⟩
    | cons c pre' ih =>
      obtain ⟨n, hn⟩ := ih
      rw [List.cons_append, findTabMatch_cons]
      cases htry : tryTabAt (c :: (pre' ++ 't' :: 'a' :: 'b' :: '-' :: (ds ++ post))) with
      | some m => exact ⟨m, rfl⟩
      | none => exact ⟨n, hn⟩
  · intro tabs tabs' fmt fmt' s fb fb' n h
    rw [hfound tabs fmt s fb n h, hfound tabs' fmt' s fb' n h]

/-- Witness for claim C10: `x-tab-12` selects index 12 regardless of the
tabs present. -/
theorem claim_C10_witness :
    getSelectedTabIndex [⟨some ("x-tab-12"), none, 3⟩] id ("x-tab-12") 5 = 12 ∧
    getSelectedTabIndex [] id ("x-tab-12") 5 = 12 := by
  refine ⟨claim_C10_tab_digit_match.2.1 [⟨some ("x-tab-12"), none, 3⟩] id ("x-tab-12")
      5 12 (by decide),
    claim_C10_tab_digit_match.2.1 [] id ("x-tab-12") 5 12 (by decide)⟩

theorem findFromTopGo_spec (stack : List ViewController) (segId : String) :
    ∀ n i, findFromTopGo stack segId n = some i →
      i < n ∧ (∃ v, stack[i]? = some v ∧ v.id = some segId) ∧
      ∀ j, i < j → j < n → ∀ w, stack[j]? = some w → w.id ≠ some segId := by
  intro n
  induction n with
  | zero => intro i h; simp [findFromTopGo] at h
  | succ m ih =>
    intro i h
    unfold findFromTopGo at h
    by_cases hc : (stack[m]?).bind ViewController.id = some segId
    · rw [if_pos hc] at h
      cases h
      obtain ⟨v, hv, hvid⟩ : ∃ v, stack[m]? = some v ∧ v.id = some segId := by
        cases hm : stack[m]? with
        | some v => rw [hm] at hc; exact ⟨v, rfl, hc⟩
        | none => rw [hm] at hc; simp at hc
      refine ⟨Nat.lt_succ_self m, ⟨v, hv, hvid⟩, ?_⟩
      intro j hij hjm w hw
      exact absurd hjm (by omega)
    · rw [if_neg hc] at h
      obtain ⟨h1, h2, h3⟩ := ih i h
      refine ⟨Nat.lt_succ_of_lt h1, h2, ?_⟩
      intro j hij hjm w hw hcontra
      rcases Nat.lt_or_ge j m with hjlt | hjge
      · exact h3 j hij hjlt w hw hcontra
      · have hjeq : j = m := by omega
        subst hjeq
        apply hc
        rw [hw]
        exact hcontra

theorem findFromTopGo_none (stack : List ViewController) (segId : String)
    (hall : ∀ v ∈ stack, v.id ≠ some segId) :
    ∀ n, findFromTopGo stack segId n = none := by
  intro n
  induction n with
  | zero => rfl
  | succ m ih =>
    unfold findFromTopGo
    have hc : ¬ (stack[m]?).bind ViewController.id = some segId := by
      cases hm : stack[m]? with
      | some v => intro hcon; exact hall v (List.getElem?_mem hm) hcon
      | none => intro hcon; simp at hcon
    rw [if_neg hc]
    exact ih

theorem findFromTop_of_last (stack : List ViewController) (segId : String)
    (v : ViewController) (hlast : stack.getLast? = some v)
    (hid : v.id = some segId) :
    findViewIndexFromTop stack segId = some (stack.length - 1) := by
  have hne : stack ≠ [] := by
    intro h; rw [h] at hlast; cases hlast
  obtain ⟨m, hm⟩ : ∃ m, stack.length = m + 1 := by
    cases stack with
    | nil => exact absurd rfl hne
    | cons a t => exact ⟨t.length, rfl⟩
  have hv : stack[m]? = some v := by
    rw [List.getLast?_eq_getElem?] at hlast
    rw [hm] at hlast
    simpa using hlast
  unfold findViewIndexFromTop
  rw [hm]
  unfold findFromTopGo
  have hc : (stack[m]?).bind ViewController.id = some segId := by
    rw [hv]; exact hid
  rw [if_pos hc]
  simp

/-- Claim C1: `_loadViewFromSegment` searches the controller's stack from
the top index down for a view whose id equals the segment's id; a topmost
match leaves the stack unchanged, a non-topmost match pops the stack back
to exactly that view with animate:false and updateUrl:false, and when no
view in the stack has that id a new view built from the segment's
component and data, tagged with the segment's id, is pushed with
animate:false and updateUrl:false. -/
theorem claim_C1_load_view_from_segment (stack : List ViewController)
    (fmt : String → String) (seg : NavSegment) :
    (∀ v, stack.getLast? = some v → v.id = some seg.id →
      _loadViewFromSegment (.nav stack) fmt (some seg) = .doneTopMatch ∧
      applyLoadAction stack (_loadViewFromSegment (.nav stack) fmt (some seg)) =
        stack) ∧
    (∀ i, findViewIndexFromTop stack seg.id = some i → i ≠ stack.length - 1 →
      _loadViewFromSegment (.nav stack) fmt (some seg) = .popTo i false false ∧
      (∃ v, stack[i]? = some v ∧ v.id = some seg.id ∧
        applyLoadAction stack (.popTo i false false) = stack.take (i + 1) ∧
        (stack.take (i + 1)).getLast? = some v) ∧
      (∀ j, i < j → j < stack.length → ∀ w, stack[j]? = some w →
        w.id ≠ some seg.id)) ∧
    ((∀ v ∈ stack, v.id ≠ some seg.id) →
      _loadViewFromSegment (.nav stack) fmt (some seg) =
        .push seg.component seg.data seg.id false false ∧
      applyLoadAction stack (.push seg.component seg.data seg.id false false) =
        stack ++ [{ component := seg.component, data := seg.data,
                    id := some seg.id }]) := by
  refine ⟨?_, ?_, ?_⟩
  · intro v hlast hid
    have hfind := findFromTop_of_last stack seg.id v hlast hid
    have heq : _loadViewFromSegment (.nav stack) fmt (some seg) = .doneTopMatch := by
      simp only [_loadViewFromSegment, hfind]
      simp
    exact ⟨heq, by rw [heq]; rfl⟩
  · intro i hfind hne
    obtain ⟨hlt, ⟨v, hv, hid⟩, htopmost⟩ :=
      findFromTopGo_spec stack seg.id stack.length i hfind
    have heq : _loadViewFromSegment (.nav stack) fmt (some seg) =
        .popTo i false false := by
      simp only [_loadViewFromSegment, hfind]
      rw [if_neg hne]
    refine ⟨heq, ⟨v, hv, hid, rfl, ?_⟩, htopmost⟩
    have hlen : (stack.take (i + 1)).length = i + 1 := by
      simp [Nat.succ_le_of_lt hlt]
    rw [List.getLast?_eq_getElem?, hlen]
    simpa [List.getElem?_take_of_succ] using hv
  · intro hall
    have hfind : findViewIndexFromTop stack seg.id = none :=
      findFromTopGo_none stack seg.id hall stack.length
    have heq : _loadViewFromSegment (.nav stack) fmt (some seg) =
        .push seg.component seg.data seg.id false false := by
      simp only [_loadViewFromSegment, hfind]
    exact ⟨heq, rfl⟩

/-- Witness for claim C1: on a two-view stack whose bottom view matches the
segment's id, reconciliation pops back to that view without animation and
without a URL update. -/
theorem claim_C1_witness :
    _loadViewFromSegment
        (.nav [⟨some ("A"), none, some ("v1")⟩, ⟨some ("B"), none, some ("v2")⟩]) id
        (some ⟨"v1", "a", some ("A"), none, none⟩) = .popTo 0 false false ∧
    applyLoadAction [⟨some ("A"), none, some ("v1")⟩, ⟨some ("B"), none, some ("v2")⟩]
        (.popTo 0 false false) = [⟨some ("A"), none, some ("v1")⟩] := by
  have h := (claim_C1_load_view_from_segment
    [⟨some ("A"), none, some ("v1")⟩, ⟨some ("B"), none, some ("v2")⟩] id
    ⟨"v1", "a", some ("A"), none, none⟩).2.1 0 (by decide) (by decide)
  refine ⟨h.1, ?_⟩
  obtain ⟨v, hv, hid, happ, hlast⟩ := h.2.1
  rw [happ]
  decide

theorem dropWhile_head_false {p : Char → Bool} :
    ∀ (l : List Char) (c : Char), (l.dropWhile p).head? = some c →
      p c = false := by
  intro l
  induction l with
  | nil => intro c h; simp at h
  | cons a as ih =>
    intro c h
    by_cases hp : p a
    · rw [List.dropWhile_cons_of_pos hp] at h
      exact ih c h
    · rw [List.dropWhile_cons_of_neg hp] at h
      simp only [List.head?_cons, Option.some.injEq] at h
      rw [← h]
      revert hp
      cases p a <;> simp

theorem dropWhile_getLast_eq {p : Char → Bool} :
    ∀ (l : List Char), l.dropWhile p ≠ [] →
      (l.dropWhile p).getLast? = l.getLast? := by
  intro l
  induction l with
  | nil => intro h; simp at h
  | cons a as ih =>
    intro h
    by_cases hp : p a
    · rw [List.dropWhile_cons_of_pos hp] at h ⊢
      rw [ih h]
      cases as with
      | nil => simp at h
      | cons b bs => rw [List.getLast?_cons_cons]
    · rw [List.dropWhile_cons_of_neg hp]

theorem dropWhile_eq_self_of_head {p : Char → Bool} (l : List Char)
    (h : ∀ c, l.head? = some c → p c = false) : l.dropWhile p = l := by
  cases l with
  | nil => rfl
  | cons a as =>
    have ha : p a = false := h a rfl
    rw [List.dropWhile_cons_of_neg (by simp [ha])]

theorem jsTrim_head_not_ws (l : List Char) (c : Char)
    (h : (jsTrim l).head? = some c) : jsIsWs c = false := by
  unfold jsTrim at h
  rw [List.head?_reverse] at h
  by_cases hy : ((l.dropWhile jsIsWs).reverse.dropWhile jsIsWs) = []
  · rw [hy] at h; simp at h
  · rw [dropWhile_getLast_eq _ hy, List.getLast?_reverse] at h
    exact dropWhile_head_false l c h

theorem jsTrim_last_not_ws (l : List Char) (c : Char)
    (h : (jsTrim l).getLast? = some c) : jsIsWs c = false := by
  unfold jsTrim at h
  rw [List.getLast?_reverse] at h
  exact dropWhile_head_false _ c h

theorem jsTrim_eq_self (l : List Char)
    (h1 : ∀ c, l.head? = some c → jsIsWs c = false)
    (h2 : ∀ c, l.getLast? = some c → jsIsWs c = false) : jsTrim l = l := by
  unfold jsTrim
  rw [dropWhile_eq_self_of_head l h1]
  rw [dropWhile_eq_self_of_head l.reverse
    (fun c hc => h2 c (by rwa [List.head?_reverse] at hc))]
  exact List.reverse_reverse l

theorem ensureLeadingSlash_head (t : List Char) :
    (ensureLeadingSlash t).head? = some '/' := by
  unfold ensureLeadingSlash
  by_cases h : t.head? = some '/'
  · rw [if_pos h]; exact h
  · rw [if_neg h]; rfl

theorem normalizeUrlChars_fixed (r : List Char)
    (h1 : r.head? = some '/')
    (h2 : ∀ c, r.getLast? = some c → jsIsWs c = false)
    (h3 : 1 < r.length → r.getLast? ≠ some '/') :
    normalizeUrlChars r = r := by
  have hh : ∀ c, r.head? = some c → jsIsWs c = false := by
    intro c hc
    rw [h1] at hc
    cases hc
    rfl
  unfold normalizeUrlChars
  rw [jsTrim_eq_self r hh h2]
  unfold ensureLeadingSlash
  rw [if_pos h1]
  unfold stripTrailingSlash
  rw [if_neg (fun hand => h3 hand.1 hand.2)]

theorem strip_fixed_core (t : List Char)
    (tl : ∀ c, t.getLast? = some c → jsIsWs c = false)
    (hgood : t.getLast? = some '/' →
      ∀ c, t.dropLast.getLast? = some c → c ≠ '/' ∧ jsIsWs c = false) :
    normalizeUrlChars (stripTrailingSlash (ensureLeadingSlash t)) =
      stripTrailingSlash (ensureLeadingSlash t) := by
  by_cases hh : t.head? = some '/'
  · simp only [ensureLeadingSlash, if_pos hh]
    by_cases hcond : 1 < t.length ∧ t.getLast? = some '/'
    · simp only [stripTrailingSlash, if_pos hcond]
      obtain ⟨ys, rfl⟩ := List.getLast?_eq_some_iff.mp hcond.2
      rw [List.dropLast_concat]
      have hysne : ys ≠ [] := by
        intro h0
        rw [h0] at hcond
        simp at hcond
      apply normalizeUrlChars_fixed
      · rw [List.head?_append_of_ne_nil ys hysne] at hh
        exact hh
      · intro c hc
        exact (hgood hcond.2 c (by rw [List.dropLast_concat]; exact hc)).2
      · intro hlen heq
        exact (hgood hcond.2 '/' (by rw [List.dropLast_concat]; exact heq)).1 rfl
    · simp only [stripTrailingSlash, if_neg hcond]
      exact normalizeUrlChars_fixed t hh tl (fun hlen heq => hcond ⟨hlen, heq⟩)
  · simp only [ensureLeadingSlash, if_neg hh]
    cases t with
    | nil => decide
    | cons b bs =>
      by_cases hcond : 1 < ('/' :: b :: bs).length ∧
          ('/' :: b :: bs).getLast? = some '/'
      · simp only [stripTrailingSlash, if_pos hcond]
        have hlast : (b :: bs).getLast? = some '/' := by
          rw [← List.getLast?_cons_cons]
          exact hcond.2
        obtain ⟨zs, hzs⟩ := List.getLast?_eq_some_iff.mp hlast
        rw [List.dropLast_cons_of_ne_nil (by simp : (b :: bs) ≠ [])]
        rw [hzs, List.dropLast_concat]
        have hfacts : ∀ c, zs.getLast? = some c → c ≠ '/' ∧ jsIsWs c = false := by
          intro c hc
          refine hgood hlast c ?_
          rw [hzs, List.dropLast_concat]
          exact hc
        apply normalizeUrlChars_fixed
        · rfl
        · intro c hc
          cases zs with
          | nil =>
            simp at hc
            rw [← hc]
            decide
          | cons z zsr =>
            rw [List.getLast?_cons_cons] at hc
            exact (hfacts c hc).2
        · intro hlen heq
          cases zs with
          | nil => simp at hlen
          | cons z zsr =>
            rw [List.getLast?_cons_cons] at heq
            exact (hfacts '/' heq).1 rfl
      · simp only [stripTrailingSlash, if_neg hcond]
        apply normalizeUrlChars_fixed
        · rfl
        · intro c hc
          rw [List.getLast?_cons_cons] at hc
          exact tl c hc
        · intro hlen heq
          exact hcond ⟨by simp, heq⟩

theorem normalizeUrlChars_idem (l : List Char)
    (h : ¬ ((jsTrim l).getLast? = some '/' ∧
      ((jsTrim l).dropLast.getLast? = some '/' ∨
       ((jsTrim l).dropLast.getLast?).map jsIsWs = some true))) :
    normalizeUrlChars (normalizeUrlChars l) = normalizeUrlChars l := by
  have hgood : (jsTrim l).getLast? = some '/' →
      ∀ c, (jsTrim l).dropLast.getLast? = some c →
        c ≠ '/' ∧ jsIsWs c = false := by
    intro hlast c hc
    constructor
    · intro hs
      subst hs
      exact h ⟨hlast, Or.inl hc⟩
    · by_contra hws
      apply h
      refine ⟨hlast, Or.inr ?_⟩
      rw [hc]
      have : jsIsWs c = true := by
        revert hws
        cases jsIsWs c <;> simp
      simp [this]
  exact strip_fixed_core (jsTrim l) (jsTrim_last_not_ws l) hgood

/-- Claim C3 as stated is false: `normalizeUrl` strips only a single
trailing slash, so on `"/a//"` it returns `"/a/"`, which normalizes
further to `"/a"` — normalization is not idempotent on every string. -/
theorem claim_C3_counterexample :
    normalizeUrl (normalizeUrl ("/a//")) ≠ normalizeUrl ("/a//") ∧
    normalizeUrl ("/a//") = "/a/" ∧ normalizeUrl ("/a/") = "/a" := by decide

/-- Claim C3 amended: normalization is idempotent on every string whose
trimmed form does not end in a slash immediately preceded by another slash
or by a whitespace character (on such strings one pass leaves a trailing
slash or trailing whitespace behind); the concrete equalities
`normalizeUrl "" = "/"`, `normalizeUrl "/a/" = "/a"` and
`normalizeUrl "a" = "/a"` hold unconditionally. -/
theorem claim_C3_amended_idempotence (u : String)
    (h : ¬ ((jsTrim u.data).getLast? = some '/' ∧
      ((jsTrim u.data).dropLast.getLast? = some '/' ∨
       ((jsTrim u.data).dropLast.getLast?).map jsIsWs = some true))) :
    normalizeUrl (normalizeUrl u) = normalizeUrl u ∧
    normalizeUrl ("") = "/" ∧ normalizeUrl ("/a/") = "/a" ∧
    normalizeUrl ("a") = "/a" := by
  refine ⟨?_, by decide, by decide, by decide⟩
  unfold normalizeUrl
  exact congrArg String.mk (normalizeUrlChars_idem u.data h)

/-- Witness for the amended claim C3 at the concrete input `"/ab/"`. -/
theorem claim_C3_witness :
    normalizeUrl (normalizeUrl ("/ab/")) = normalizeUrl ("/ab/") ∧
    normalizeUrl ("/ab/") = "/ab" := by
  refine ⟨(claim_C3_amended_idempotence ("/ab/") (by decide)).1, by decide⟩

end DeepLinker
